import Mathlib

/-!
Shallow embedding of the Vecs ECS core (src/vecs/Entity.h, SparseSet.h,
Pool.h, View.h) and verification of the frozen claims about it.

Modelling conventions:
* `uint32` values are `Nat` with explicit truncation `% 4294967296` where the
  C++ arithmetic can wrap; bit-mask extraction `x & 0x3FFFFFFF` is written
  `x % 1073741824` and `x >> 30 & 0x3` is written `x / 1073741824 % 4`,
  which agree with the bitwise forms on every natural number.
* `std::vector` is `List`; `reserve`/`shrink_to_fit`/capacity calls have no
  observable effect on element data and are dropped (noted per function).
* Raw component pointers (`T* lastComponent` in `Pool`) are modelled as an
  optional index into the dense component array; dereferencing an index past
  the current length (a popped slot, a dangling pointer in the C++) yields
  `none`.
* `T&` returning accessors with an unchecked precondition are modelled as
  `Option`-returning lookups.
-/

set_option maxRecDepth 100000

namespace Vecs

/-! ### Entity.h -/

/-- `EntityConstants::idMask = 0x3FFFFFFF` (30 bits for the entity id). -/
def EntityConstants.idMask : Nat := 1073741823

/-- `EntityConstants::versionMask = 0x3` (2 bits for the version). -/
def EntityConstants.versionMask : Nat := 3

/-- `EntityConstants::versionShift = 30`. -/
def EntityConstants.versionShift : Nat := 30

/-- `EntityConstants::nullEntity = std::numeric_limits<uint32_t>::max()`. -/
def EntityConstants.nullEntity : Nat := 4294967295

/-- `vecs::Entity`: a single packed `uint32` identifier. -/
structure Entity where
  identifier : Nat
deriving DecidableEq

/-- `Entity(EntityId id, Version version)`: the source packs
`version << versionShift | id & idMask` in `uint32` arithmetic.  The two
operands occupy disjoint bit ranges, so the bitwise or is addition, the
32-bit truncation of `version << 30` keeps `version % 4`, and
`id & 0x3FFFFFFF` is `id % 2^30`. -/
def Entity.make (id version : Nat) : Entity :=
  ⟨version % 4 * 1073741824 + id % 1073741824⟩

/-- `Entity(uint32 id)`: the raw single-argument constructor (used to store
dense positions inside the sparse array); the argument is a `size_t` cast to
`uint32`, hence the truncation. -/
def Entity.ofRaw (v : Nat) : Entity := ⟨v % 4294967296⟩

/-- `Entity::getId() = identifier & idMask`. -/
def Entity.getId (e : Entity) : Nat := e.identifier % 1073741824

/-- `Entity::getVersion() = (identifier >> versionShift) & versionMask`. -/
def Entity.getVersion (e : Entity) : Nat := e.identifier / 1073741824 % 4

/-- `Entity::null() = Entity{EntityConstants::nullEntity}`. -/
def Entity.null : Entity := ⟨EntityConstants.nullEntity⟩

/-- `vecs::EntityManager` state: FIFO queue of recycled ids (head = front),
per-slot version table, list of currently valid entities, next fresh id.
The constructor only reserves capacity, so the initial state is empty. -/
structure EntityManager where
  recycledIds : List Nat
  versions : List Nat
  validEntities : List Entity
  nextId : Nat
deriving DecidableEq

/-- A fresh `EntityManager` (the constructor only calls `reserve`). -/
def EntityManager.init : EntityManager := ⟨[], [], [], 0⟩

/-- `EntityManager::create()`: pop a recycled id from the queue front if any,
otherwise take `nextId++`, growing the version table with zeroes to
`max(id + 1, versions.size() * 2)` when `id` is out of range; the returned
entity pairs the chosen id with that slot's current version and is appended
to `validEntities`. -/
def EntityManager.create (m : EntityManager) : Entity × EntityManager :=
  match m.recycledIds with
  | id :: rest =>
      let e := Entity.make id (m.versions.getD id 0)
      (e, { m with recycledIds := rest, validEntities := m.validEntities ++ [e] })
  | [] =>
      let id := m.nextId
      let versions :=
        if m.versions.length ≤ id then
          m.versions ++ List.replicate (max (id + 1) (m.versions.length * 2) - m.versions.length) 0
        else m.versions
      let e := Entity.make id (versions.getD id 0)
      (e, { recycledIds := [], versions := versions,
            validEntities := m.validEntities ++ [e], nextId := id + 1 })

/-- `std::ranges::find` then `*it = validEntities.back(); pop_back()`:
swap-remove of the first occurrence of `e` (no-op when absent). -/
def swapRemoveFirst (l : List Entity) (e : Entity) : List Entity :=
  if e ∈ l then (l.set (List.indexOf e l) (l.getLastD Entity.null)).dropLast
  else l

/-- `EntityManager::destroy(e)`: no-op unless the id is in range and the
stored version matches; otherwise swap-remove `e` from `validEntities`,
bump the slot version by `versions[id] + 1 & versionMask` (written `% 4`),
and push the id at the back of the recycle queue. -/
def EntityManager.destroy (m : EntityManager) (e : Entity) : EntityManager :=
  let id := e.getId
  if m.versions.length ≤ id then m
  else if m.versions.getD id 0 ≠ e.getVersion then m
  else
    { m with
      validEntities := swapRemoveFirst m.validEntities e,
      versions := m.versions.set id ((m.versions.getD id 0 + 1) % 4),
      recycledIds := m.recycledIds ++ [id] }

/-- `EntityManager::isValid(e)`: id in range and stored version matches. -/
def EntityManager.isValid (m : EntityManager) (e : Entity) : Bool :=
  decide (e.getId < m.versions.length) && m.versions.getD e.getId 0 == e.getVersion

/-- `EntityManager::clear()`: reset queue, version table, valid list and
`nextId` (the `shrink_to_fit` calls only touch capacity). -/
def EntityManager.clear (_ : EntityManager) : EntityManager := ⟨[], [], [], 0⟩

/-- `EntityManager::size() = validEntities.size()`. -/
def EntityManager.size (m : EntityManager) : Nat := m.validEntities.length

/-! ### SparseSet.h -/

/-- `vecs::SparseSet<T>`: dense entity array, sparse index array (holding
either `Entity::null()` or a dense position packed through the raw `Entity`
constructor), and the parallel component array.  The `pageSize` member is
always `4096`; capacity-only members are dropped. -/
structure SparseSet (γ : Type) where
  dense : List Entity
  sparse : List Entity
  components : List γ
deriving DecidableEq

/-- A freshly constructed `SparseSet` (the constructor only reserves). -/
def SparseSet.init {γ : Type} : SparseSet γ := ⟨[], [], []⟩

/-- `SparseSet::assureSpace(entity)`: when `entity.getId()` is out of sparse
range, grow the sparse array with `Entity::null()` to
`required + (required >> 1)` rounded up to a 4096 page
(`size + pageSize - 1 & ~(pageSize - 1)`); the `dense`/`components` reserve
calls only touch capacity. -/
def SparseSet.assureSpace {γ : Type} (s : SparseSet γ) (e : Entity) : SparseSet γ :=
  let entityId := e.getId
  if s.sparse.length ≤ entityId then
    let required := entityId + 1
    let size := required + required / 2
    let alignedSize := (size + 4096 - 1) / 4096 * 4096
    { s with sparse := s.sparse ++ List.replicate (alignedSize - s.sparse.length) Entity.null }
  else s

/-- `SparseSet::contains(entity)`: id within the sparse array, the sparse
entry's id a position inside `dense`, and the dense entry there equal to the
queried entity (id and version both). -/
def SparseSet.contains {γ : Type} (s : SparseSet γ) (e : Entity) : Bool :=
  decide (e.getId < s.sparse.length) &&
  decide ((s.sparse.getD e.getId Entity.null).getId < s.dense.length) &&
  s.dense.getD (s.sparse.getD e.getId Entity.null).getId Entity.null == e

/-- `SparseSet::get(entity)`: `components[sparse[entity.getId()].getId()]`,
an unchecked hot-path accessor (`assert(contains(entity))` in debug); an
out-of-range read is `none`. -/
def SparseSet.get {γ : Type} (s : SparseSet γ) (e : Entity) : Option γ :=
  s.components[(s.sparse.getD e.getId Entity.null).getId]?

/-- `SparseSet::insert(entity, component)`: assure space, then no-op when
already contained, else record the fresh dense position in the sparse array
and append to `dense`/`components`. -/
def SparseSet.insert {γ : Type} (s : SparseSet γ) (e : Entity) (v : γ) : SparseSet γ :=
  let s := s.assureSpace e
  if s.contains e then s
  else
    { s with
      sparse := s.sparse.set e.getId (Entity.ofRaw s.dense.length),
      dense := s.dense ++ [e],
      components := s.components ++ [v] }

/-- `SparseSet::emplace(entity, args...)`: like `insert` with the component
constructed from the arguments; when already contained the existing
component is kept (only the returned reference differs, which the `Pool`
recomputes from the sparse array). -/
def SparseSet.emplace {γ : Type} (s : SparseSet γ) (e : Entity) (v : γ) : SparseSet γ :=
  let s := s.assureSpace e
  if s.contains e then s
  else
    { s with
      sparse := s.sparse.set e.getId (Entity.ofRaw s.dense.length),
      dense := s.dense ++ [e],
      components := s.components ++ [v] }

/-- `SparseSet::remove(entity)`: no-op when not contained; otherwise classic
swap-remove — move the last `components`/`dense` entries into the removed
slot, repoint the moved entity's sparse entry, null the removed entity's
sparse entry (in source order, so removing the last element nulls its own
entry), and pop both arrays. -/
def SparseSet.remove {γ : Type} [Inhabited γ] (s : SparseSet γ) (e : Entity) : SparseSet γ :=
  if !s.contains e then s
  else
    let last := s.dense.length - 1
    let entityId := e.getId
    let index := (s.sparse.getD entityId Entity.null).getId
    let lastEntity := s.dense.getD last Entity.null
    { dense := (s.dense.set index lastEntity).dropLast,
      sparse := (s.sparse.set lastEntity.getId (Entity.ofRaw index)).set entityId Entity.null,
      components := (s.components.set index (s.components.getD last default)).dropLast }

/-- `SparseSet::clear()`: empty all three arrays (capacity is retained by the
source but is not observable). -/
def SparseSet.clear {γ : Type} (_ : SparseSet γ) : SparseSet γ := ⟨[], [], []⟩

/-- `SparseSet::sort(compare)`: the source sorts an index permutation with
`std::sort` and rebuilds the arrays; the permutation chosen by `std::sort`
is modelled as an explicit argument `indices` (in use a permutation of
`range(length)`), and the rebuild loop pushes `components[indices[i]]`,
`dense[indices[i]]` and repoints `sparse[dense[indices[i]].getId()] = Entity{i}`. -/
def SparseSet.sortWith {γ : Type} [Inhabited γ] (s : SparseSet γ) (indices : List Nat) :
    SparseSet γ :=
  if s.dense.length ≤ 1 then s
  else
    let n := s.dense.length
    { dense := (List.range n).map fun i => s.dense.getD (indices.getD i 0) Entity.null,
      components := (List.range n).map fun i => s.components.getD (indices.getD i 0) default,
      sparse := (List.range n).foldl
        (fun sp i => sp.set (s.dense.getD (indices.getD i 0) Entity.null).getId (Entity.ofRaw i))
        s.sparse }

/-- `SparseSet::size() = dense.size()`. -/
def SparseSet.size {γ : Type} (s : SparseSet γ) : Nat := s.dense.length

/-! ### Pool.h -/

/-- `vecs::Pool<T>`: a `SparseSet` (field `components` in the source), a
separate `componentCount`, and the cached last-accessed pair
`lastEntity` / `lastComponent` (`T*`, modelled as an optional dense index). -/
structure Pool (γ : Type) where
  components : SparseSet γ
  componentCount : Nat
  lastEntity : Entity
  lastComponent : Option Nat
deriving DecidableEq

/-- A freshly constructed `Pool`: empty set, zero count,
`lastEntity = Entity::null()`, `lastComponent = nullptr`. -/
def Pool.init {γ : Type} : Pool γ := ⟨SparseSet.init, 0, Entity.null, none⟩

/-- `Pool::insert(entity, component)`: forward to the sparse set, increment
`componentCount` unconditionally, and point the cache at
`&components.get(entity)` (the dense slot the sparse array now assigns). -/
def Pool.insert {γ : Type} (p : Pool γ) (e : Entity) (v : γ) : Pool γ :=
  let cs := p.components.insert e v
  { components := cs,
    componentCount := p.componentCount + 1,
    lastEntity := e,
    lastComponent := some (cs.sparse.getD e.getId Entity.null).getId }

/-- `Pool::emplace(entity, args...)`: increment the count only when the
entity was absent, emplace into the sparse set, and cache the resulting
component reference. -/
def Pool.emplace {γ : Type} (p : Pool γ) (e : Entity) (v : γ) : Pool γ :=
  let newCount := p.componentCount + (if p.components.contains e then 0 else 1)
  let cs := p.components.emplace e v
  { components := cs,
    componentCount := newCount,
    lastEntity := e,
    lastComponent := some (cs.sparse.getD e.getId Entity.null).getId }

/-- `Pool::get(entity)`: on a cache hit return `*lastComponent` (dereference
of the stored pointer: `none` when it dangles past the array or is null);
otherwise read through the sparse set and refresh the cache. -/
def Pool.get {γ : Type} (p : Pool γ) (e : Entity) : Option γ × Pool γ :=
  if e == p.lastEntity then
    (match p.lastComponent with
     | some i => p.components.components[i]?
     | none => none, p)
  else
    (p.components.get e,
     { p with lastEntity := e,
              lastComponent := some (p.components.sparse.getD e.getId Entity.null).getId })

/-- `Pool::has(entity)`: `true` on a cache hit, else `contains`. -/
def Pool.has {γ : Type} (p : Pool γ) (e : Entity) : Bool :=
  if e == p.lastEntity then true else p.components.contains e

/-- `Pool::removeEntity(entity)`: when contained, remove from the sparse set,
decrement the count, and reset the cache only when the removed entity is the
cached one. -/
def Pool.removeEntity {γ : Type} [Inhabited γ] (p : Pool γ) (e : Entity) : Pool γ :=
  if p.components.contains e then
    let p' := { p with components := p.components.remove e,
                       componentCount := p.componentCount - 1 }
    if e == p.lastEntity then
      { p' with lastEntity := Entity.null, lastComponent := none }
    else p'
  else p

/-- `Pool::size() = componentCount`. -/
def Pool.size {γ : Type} (p : Pool γ) : Nat := p.componentCount

/-- `Pool::clear()`: clear the sparse set, zero the count, reset the cache. -/
def Pool.clear {γ : Type} (p : Pool γ) : Pool γ :=
  { components := p.components.clear, componentCount := 0,
    lastEntity := Entity.null, lastComponent := none }

/-- `Pool::getEntities() = ` the sparse set's dense entity array. -/
def Pool.getEntities {γ : Type} (p : Pool γ) : List Entity := p.components.dense

/-! ### View.h

The variadic `View<Components...>` is modelled over a list of pools of one
component type: the visited-entity semantics only reads the driver pool's
dense entity array (`getEntities`, a `vector<Entity>` independent of the
component type — the source reaches it by casting the smallest `BasePool*`
to the first component's pool type) and calls the type-erased `size()` and
the per-pool `has`. -/

/-- `View::findSmallestPool`: fold over the bound pools keeping the first
pool of strictly smallest `size()`; `minSize` starts at `SIZE_MAX`, so the
first pool is selected initially (every attainable count is below
`SIZE_MAX`), and the result is null only when there are no pools. -/
def findSmallestPool {γ : Type} (ps : List (Pool γ)) : Option (Pool γ) :=
  ps.foldl
    (fun acc p =>
      match acc with
      | none => some p
      | some q => if p.size < q.size then some p else some q)
    none

/-- `View::entityExistsInAllPools(entity)`: `has` in every bound pool. -/
def entityExistsInAllPools {γ : Type} (ps : List (Pool γ)) (e : Entity) : Bool :=
  ps.all fun p => p.has e

/-- The sequence of entities visited by `View::each` (identical for the
three visitor shapes): iterate the smallest pool's dense entity array and
keep the entities present in every bound pool. -/
def viewEachEntities {γ : Type} (ps : List (Pool γ)) : List Entity :=
  match findSmallestPool ps with
  | none => []
  | some driver => driver.getEntities.filter fun e => entityExistsInAllPools ps e

/-! ### Invariants and scenario definitions -/

/-- Structural invariant of a sparse set maintained by facade-level use:
the component array parallels `dense`, `dense` stays below the positions
representable in a sparse entry (`idMask`), and the sparse entry of every
dense member points back at its dense position. -/
def SparseSet.Wf {γ : Type} (s : SparseSet γ) : Prop :=
  s.components.length = s.dense.length ∧
  s.dense.length ≤ EntityConstants.idMask ∧
  ∀ k, k < s.dense.length →
    (s.dense.getD k Entity.null).getId < s.sparse.length ∧
    s.sparse.getD (s.dense.getD k Entity.null).getId Entity.null = Entity.ofRaw k

/-- Sparse-set states reachable through the public mutators, starting from a
freshly constructed set; `sortWith` takes the index permutation chosen by
`std::sort` as an explicit argument. -/
inductive SparseSet.Reachable {γ : Type} [Inhabited γ] : SparseSet γ → Prop where
  | init : SparseSet.Reachable SparseSet.init
  | insert {s : SparseSet γ} (e : Entity) (v : γ) :
      SparseSet.Reachable s → SparseSet.Reachable (s.insert e v)
  | emplace {s : SparseSet γ} (e : Entity) (v : γ) :
      SparseSet.Reachable s → SparseSet.Reachable (s.emplace e v)
  | remove {s : SparseSet γ} (e : Entity) :
      SparseSet.Reachable s → SparseSet.Reachable (s.remove e)
  | clear {s : SparseSet γ} :
      SparseSet.Reachable s → SparseSet.Reachable s.clear
  | sort {s : SparseSet γ} (indices : List Nat) :
      SparseSet.Reachable s → indices.Perm (List.range s.dense.length) →
      SparseSet.Reachable (s.sortWith indices)

/-- Invariant of an `EntityManager` maintained by proper API use: stored
versions fit the 2-bit mask, every live entity's id is in range with a
matching version-table entry, live ids are pairwise distinct, and recycled
ids are in range of the table and of the 30-bit id field. -/
def EntityManager.Wf (m : EntityManager) : Prop :=
  (∀ v ∈ m.versions, v ≤ 3) ∧
  (∀ e ∈ m.validEntities,
      e.getId < m.versions.length ∧ m.versions.getD e.getId 0 = e.getVersion) ∧
  (m.validEntities.map Entity.getId).Nodup ∧
  (∀ i ∈ m.recycledIds, i < m.versions.length ∧ i < 1073741824)

/-- One destroy/recreate cycle: destroy the handle, then create (as in the
version-wraparound scenario of the spec's testable properties). -/
def destroyCreate (p : Entity × EntityManager) : Entity × EntityManager :=
  (p.2.destroy p.1).create

/-- Invariant of a pool bound into a view, as produced by facade-level use:
the sparse set is well formed, the cache either is empty
(`lastEntity = Entity::null()`) or caches a current member, and the null
entity is never a member. -/
def WfViewPool {γ : Type} (p : Pool γ) : Prop :=
  p.components.Wf ∧
  (p.lastEntity = Entity.null ∨ p.components.contains p.lastEntity = true) ∧
  Entity.null ∉ p.components.dense

/-! Concrete states used as counterexamples and witnesses (all built through
the embedded operations). -/

/-- Entity with id 0, version 0. -/
def entA : Entity := Entity.make 0 0

/-- Entity with id 1, version 0. -/
def entB : Entity := Entity.make 1 0

/-- A pool into which the same entity is inserted twice. -/
def poolDouble : Pool Nat := ((Pool.init : Pool Nat).insert entA 7).insert entA 9

/-- A pool holding `entB` then `entA` (so `entA` is the last dense member
and is the cached last-accessed entity). -/
def poolCache : Pool Nat := ((Pool.init : Pool Nat).insert entB 5).insert entA 6

/-- `poolCache` after removing `entB`: the swap-remove relocates `entA`'s
component while the cache still points at the popped slot. -/
def poolCacheRemoved : Pool Nat := poolCache.removeEntity entB

/-- A fresh manager after one `create()` (returns the handle and manager). -/
def mgrOne : Entity × EntityManager := EntityManager.init.create

/-- The spec's concrete view scenario, Position pool: entity 1 and entity 2. -/
def poolPos : Pool Nat := ((Pool.init : Pool Nat).insert entA 12).insert entB 34

/-- The spec's concrete view scenario, Velocity pool: entity 2 only. -/
def poolVel : Pool Nat := (Pool.init : Pool Nat).insert entB 56

/-- A two-member sparse set for the swap-remove witness. -/
def ssTwo : SparseSet Nat := ((SparseSet.init : SparseSet Nat).insert entA 10).insert entB 20

/-- A one-member sparse set reachable from a fresh set. -/
def ssOne : SparseSet Nat := (SparseSet.init : SparseSet Nat).insert entA 5

/-! ### Arithmetic facts about packed entities -/

theorem Entity.getId_make (id v : Nat) : (Entity.make id v).getId = id % 1073741824 := by
  simp only [Entity.make, Entity.getId]
  omega

theorem Entity.getVersion_make (id v : Nat) : (Entity.make id v).getVersion = v % 4 := by
  simp only [Entity.make, Entity.getVersion]
  omega

theorem Entity.getVersion_lt (e : Entity) : e.getVersion < 4 := by
  simp only [Entity.getVersion]
  omega

theorem Entity.getId_lt (e : Entity) : e.getId < 1073741824 := by
  simp only [Entity.getId]
  omega

theorem Entity.getId_ofRaw {v : Nat} (h : v < 1073741824) :
    (Entity.ofRaw v).getId = v := by
  simp only [Entity.ofRaw, Entity.getId]
  omega

theorem Entity.null_getId : Entity.null.getId = 1073741823 := by decide

theorem Entity.ofRaw_inj {v w : Nat} (hv : v < 1073741824) (hw : w < 1073741824)
    (h : Entity.ofRaw v = Entity.ofRaw w) : v = w := by
  simp only [Entity.ofRaw, Entity.mk.injEq] at h
  omega

theorem Entity.ne_of_getVersion_ne {e e' : Entity}
    (h : e.getVersion ≠ e'.getVersion) : e ≠ e' := by
  intro hc; exact h (by rw [hc])

theorem Entity.ne_of_getId_ne {e e' : Entity} (h : e.getId ≠ e'.getId) : e ≠ e' := by
  intro hc; exact h (by rw [hc])

/-! ### SparseSet well-formedness lemmas -/

theorem SparseSet.contains_iff {γ : Type} (s : SparseSet γ) (e : Entity) :
    s.contains e = true ↔
      e.getId < s.sparse.length ∧
      (s.sparse.getD e.getId Entity.null).getId < s.dense.length ∧
      s.dense.getD (s.sparse.getD e.getId Entity.null).getId Entity.null = e := by
  simp [SparseSet.contains, Bool.and_eq_true, decide_eq_true_eq, beq_iff_eq, and_assoc]

theorem SparseSet.mem_dense_of_contains {γ : Type} {s : SparseSet γ} {e : Entity}
    (h : s.contains e = true) : e ∈ s.dense := by
  rcases (s.contains_iff e).1 h with ⟨-, hk, he⟩
  rw [List.getD_eq_getElem _ _ hk] at he
  exact he ▸ List.getElem_mem hk

theorem SparseSet.contains_of_wf_mem {γ : Type} {s : SparseSet γ} (hw : s.Wf)
    {k : Nat} (hk : k < s.dense.length) :
    s.contains (s.dense.getD k Entity.null) = true := by
  rcases hw with ⟨-, hlen, hptr⟩
  rcases hptr k hk with ⟨hid, hsp⟩
  have hmask : EntityConstants.idMask = 1073741823 := rfl
  rw [s.contains_iff]
  refine ⟨hid, ?_, ?_⟩ <;> rw [hsp, Entity.getId_ofRaw (by omega)]
  exact hk

theorem SparseSet.contains_iff_mem {γ : Type} {s : SparseSet γ} (hw : s.Wf)
    (e : Entity) : s.contains e = true ↔ e ∈ s.dense := by
  constructor
  · exact SparseSet.mem_dense_of_contains
  · intro hm
    rcases List.getElem_of_mem hm with ⟨k, hk, he⟩
    have := s.contains_of_wf_mem hw hk
    rwa [List.getD_eq_getElem _ _ hk, he] at this

/-- Two distinct dense positions of a well-formed sparse set hold entities
with distinct ids (their sparse entries would otherwise clash). -/
theorem SparseSet.dense_ids_inj {γ : Type} {s : SparseSet γ} (hw : s.Wf)
    {k k' : Nat} (hk : k < s.dense.length) (hk' : k' < s.dense.length)
    (h : (s.dense.getD k Entity.null).getId = (s.dense.getD k' Entity.null).getId) :
    k = k' := by
  rcases hw with ⟨-, hlen, hptr⟩
  rcases hptr k hk with ⟨-, hsp⟩
  rcases hptr k' hk' with ⟨-, hsp'⟩
  rw [h, hsp'] at hsp
  have : EntityConstants.idMask = 1073741823 := rfl
  exact (Entity.ofRaw_inj (by omega) (by omega) hsp.symm)

/-! ### Generic list helpers -/

theorem getD_set_self {α : Type} {l : List α} {i : Nat} (h : i < l.length) (a d : α) :
    (l.set i a).getD i d = a := by
  rw [List.getD_eq_getElem?_getD, List.getElem?_set_self h]
  rfl

theorem getD_set_ne {α : Type} (l : List α) {i j : Nat} (h : i ≠ j) (a d : α) :
    (l.set i a).getD j d = l.getD j d := by
  rw [List.getD_eq_getElem?_getD, List.getElem?_set_ne h, List.getD_eq_getElem?_getD]

theorem getD_append_left {α : Type} (l l' : List α) {i : Nat} (h : i < l.length) (d : α) :
    ((l ++ l').getD i d) = l.getD i d := by
  rw [List.getD_eq_getElem?_getD, List.getElem?_append, if_pos h, List.getD_eq_getElem?_getD]

theorem getLastD_congr {α : Type} {l : List α} (h : l ≠ []) (a b : α) :
    l.getLastD a = l.getLastD b := by
  rw [List.getLastD_eq_getLast?, List.getLastD_eq_getLast?, List.getLast?_eq_getLast l h]
  rfl

theorem dropLast_cons_of_ne_nil {α : Type} (a : α) {l : List α} (h : l ≠ []) :
    (a :: l).dropLast = a :: l.dropLast := by
  cases l with
  | nil => exact absurd rfl h
  | cons b t => exact List.dropLast_cons₂

/-- The `find`/overwrite-with-back/`pop_back` removal used by
`EntityManager::destroy` is, up to order, erasure of the first occurrence. -/
theorem swapRemoveFirst_perm {l : List Entity} {e : Entity} (h : e ∈ l) :
    List.Perm (swapRemoveFirst l e) (l.erase e) := by
  induction l with
  | nil => cases h
  | cons a t ih =>
    unfold swapRemoveFirst
    rw [if_pos h]
    by_cases hae : a = e
    · subst hae
      rw [List.indexOf_cons_self, List.erase_cons_head]
      cases t with
      | nil => simp
      | cons b t' =>
        rw [List.getLastD_cons, List.set_cons_zero,
          dropLast_cons_of_ne_nil _ (by simp)]
        have hne : (b :: t') ≠ [] := by simp
        have h1 : (b :: t').getLastD a = (b :: t').getLast hne := by
          rw [List.getLastD_eq_getLast?, List.getLast?_eq_getLast _ hne]
          rfl
        rw [h1]
        have h2 := List.perm_append_singleton ((b :: t').getLast hne) (b :: t').dropLast
        have h3 := List.dropLast_append_getLast hne
        conv_rhs => rw [← h3]
        exact h2.symm
    · have het : e ∈ t := by
        rcases List.mem_cons.1 h with h' | h'
        · exact absurd h'.symm hae
        · exact h'
      have htne : t ≠ [] := List.ne_nil_of_mem het
      have hbeq : (a == e) = false := beq_eq_false_iff_ne.2 hae
      rw [List.indexOf_cons, hbeq]
      simp only [cond_false]
      rw [List.set_cons_succ, List.getLastD_cons,
        dropLast_cons_of_ne_nil _ (by
          intro hcon
          exact htne (by simpa using congrArg List.length hcon)),
        List.erase_cons_tail (by simp [hbeq])]
      refine List.Perm.cons a ?_
      rw [getLastD_congr htne a Entity.null]
      have := ih het
      unfold swapRemoveFirst at this
      rwa [if_pos het] at this

/-! ### EntityManager well-formedness lemmas -/

theorem destroy_of_valid {m : EntityManager} {e : Entity}
    (hid : e.getId < m.versions.length)
    (hver : m.versions.getD e.getId 0 = e.getVersion) :
    m.destroy e =
      { m with
        validEntities := swapRemoveFirst m.validEntities e,
        versions := m.versions.set e.getId ((e.getVersion + 1) % 4),
        recycledIds := m.recycledIds ++ [e.getId] } := by
  rw [EntityManager.destroy]
  rw [if_neg (by omega), if_neg (by rw [hver]; exact fun hc => hc rfl), hver]

/-- The elementary step for the wraparound claim: a destroy/create cycle on
a live handle of a well-formed manager with an empty recycle queue reissues
the same id with the version bumped modulo 4, keeps the manager well-formed
with an empty queue, and the created handle occurs exactly once among the
live entities. -/
theorem destroyCreate_step {m : EntityManager} {e : Entity}
    (hw : m.Wf) (hmem : e ∈ m.validEntities) (hq : m.recycledIds = []) :
    (destroyCreate (e, m)).2.Wf ∧
    (destroyCreate (e, m)).1 ∈ (destroyCreate (e, m)).2.validEntities ∧
    (destroyCreate (e, m)).2.recycledIds = [] ∧
    (destroyCreate (e, m)).1.getId = e.getId ∧
    (destroyCreate (e, m)).1.getVersion = (e.getVersion + 1) % 4 ∧
    (destroyCreate (e, m)).2.validEntities.count (destroyCreate (e, m)).1 = 1 := by
  obtain ⟨hv3, hlive, hnodup, hrec⟩ := hw
  obtain ⟨hid, hver⟩ := hlive e hmem
  have hmask : EntityConstants.idMask = 1073741823 := rfl
  have hdestroy := destroy_of_valid hid hver
  have hvalidnd : m.validEntities.Nodup := List.Nodup.of_map _ hnodup
  -- facts about the swap-removed live list
  have hperm := swapRemoveFirst_perm hmem
  have hsub : ∀ x ∈ swapRemoveFirst m.validEntities e, x ∈ m.validEntities ∧ x ≠ e := by
    intro x hx
    have hx' : x ∈ m.validEntities.erase e := hperm.mem_iff.1 hx
    refine ⟨List.mem_of_mem_erase hx', ?_⟩
    intro hxe
    subst hxe
    have := List.count_erase_self x m.validEntities
    have h1 : m.validEntities.count x ≤ 1 :=
      List.nodup_iff_count_le_one.1 hvalidnd x
    have h2 : 0 < (m.validEntities.erase x).count x := List.count_pos_iff.2 hx'
    have h3 : 0 < m.validEntities.count x := List.count_pos_iff.2 (List.mem_of_mem_erase hx')
    omega
  have hids : ∀ x ∈ swapRemoveFirst m.validEntities e, x.getId ≠ e.getId := by
    intro x hx hxid
    rcases hsub x hx with ⟨hxm, hxe⟩
    exact hxe (List.inj_on_of_nodup_map hnodup hxm hmem hxid)
  -- unfold the cycle
  unfold destroyCreate
  rw [hdestroy]
  simp only [EntityManager.create, hq, List.nil_append]
  have hgetD : (m.versions.set e.getId ((e.getVersion + 1) % 4)).getD e.getId 0
      = (e.getVersion + 1) % 4 := getD_set_self hid _ _
  rw [hgetD]
  set e' := Entity.make e.getId ((e.getVersion + 1) % 4) with he'
  have he'id : e'.getId = e.getId := by
    rw [he', Entity.getId_make]
    have := e.getId_lt
    omega
  have he'ver : e'.getVersion = (e.getVersion + 1) % 4 := by
    rw [he', Entity.getVersion_make]
    omega
  have he'notin : e' ∉ swapRemoveFirst m.validEntities e := fun hc =>
    hids e' hc (by rw [he'id])
  refine ⟨⟨?_, ?_, ?_, ?_⟩, ?_, by trivial, he'id, he'ver, ?_⟩
  · intro v hv
    rcases List.mem_or_eq_of_mem_set hv with hv' | hv'
    · exact hv3 v hv'
    · omega
  · intro x hx
    rcases List.mem_append.1 hx with hx' | hx'
    · rcases hsub x hx' with ⟨hxm, -⟩
      obtain ⟨hxid, hxver⟩ := hlive x hxm
      rw [List.length_set]
      exact ⟨hxid, by rw [getD_set_ne _ (fun hc => hids x hx' hc.symm) _ _]; exact hxver⟩
    · rw [List.mem_singleton.1 hx', List.length_set, he'id]
      exact ⟨hid, by rw [hgetD, he'ver]⟩
  · show ((swapRemoveFirst m.validEntities e ++ [e']).map Entity.getId).Nodup
    rw [List.map_append, List.nodup_append]
    refine ⟨?_, by simp, ?_⟩
    · have : ((m.validEntities.erase e).map Entity.getId).Nodup :=
        List.Nodup.sublist (List.Sublist.map _ (List.erase_sublist e m.validEntities)) hnodup
      exact (hperm.map Entity.getId).nodup_iff.2 this
    · intro x hx hy
      simp only [List.map_singleton, List.mem_singleton] at hy
      rcases List.mem_map.1 hx with ⟨x', hx', hx'id⟩
      rw [hy, he'id] at hx'id
      exact hids x' hx' hx'id
  · show ∀ i ∈ ([] : List Nat), i < (m.versions.set e.getId ((e.getVersion + 1) % 4)).length ∧ i < 1073741824
    intro i hi
    cases hi
  · show e' ∈ swapRemoveFirst m.validEntities e ++ [e']
    exact List.mem_append_right _ (List.mem_singleton.2 rfl)
  · show (swapRemoveFirst m.validEntities e ++ [e']).count e' = 1
    rw [List.count_append, List.count_eq_zero.2 he'notin]
    simp

/-! ### View lemmas -/

theorem findSmallestPool_aux_mem {γ : Type} (ps : List (Pool γ)) :
    ∀ (acc : Option (Pool γ)) (d : Pool γ),
      ps.foldl
        (fun acc p =>
          match acc with
          | none => some p
          | some q => if p.size < q.size then some p else some q)
        acc = some d → acc = some d ∨ d ∈ ps := by
  induction ps with
  | nil => intro acc d h; exact Or.inl h
  | cons p t ih =>
    intro acc d h
    rcases ih _ d h with h' | h'
    · cases acc with
      | none =>
        simp only at h'
        exact Or.inr (by rw [← Option.some_inj.1 h']; exact List.mem_cons_self p t)
      | some q =>
        simp only at h'
        by_cases hlt : p.size < q.size
        · rw [if_pos hlt] at h'
          exact Or.inr (by rw [← Option.some_inj.1 h']; exact List.mem_cons_self p t)
        · rw [if_neg hlt] at h'
          exact Or.inl h'
    · exact Or.inr (List.mem_cons_of_mem p h')

theorem findSmallestPool_mem {γ : Type} {ps : List (Pool γ)} {d : Pool γ}
    (h : findSmallestPool ps = some d) : d ∈ ps := by
  rcases findSmallestPool_aux_mem ps none d h with h' | h'
  · cases h'
  · exact h'

theorem findSmallestPool_aux_isSome {γ : Type} (ps : List (Pool γ)) (q : Pool γ) :
    ∃ d, ps.foldl
        (fun acc p =>
          match acc with
          | none => some p
          | some q => if p.size < q.size then some p else some q)
        (some q) = some d := by
  induction ps generalizing q with
  | nil => exact ⟨q, rfl⟩
  | cons p t ih =>
    by_cases hlt : p.size < q.size
    · simpa [hlt] using ih p
    · simpa [hlt] using ih q

theorem findSmallestPool_of_ne_nil {γ : Type} {ps : List (Pool γ)} (h : ps ≠ []) :
    ∃ d, findSmallestPool ps = some d := by
  cases ps with
  | nil => exact absurd rfl h
  | cons p t => exact findSmallestPool_aux_isSome t p

/-- On non-null entities, `Pool::has` of a pool with a coherent cache agrees
with the underlying `SparseSet::contains`. -/
theorem has_eq_contains {γ : Type} {p : Pool γ} (hw : WfViewPool p) {e : Entity}
    (hne : e ≠ Entity.null) : p.has e = p.components.contains e := by
  rcases hw with ⟨-, hcache, -⟩
  rw [Pool.has]
  by_cases hle : e == p.lastEntity
  · rw [if_pos hle]
    rcases hcache with hnull | hc
    · exact absurd (by rw [← hnull]; exact beq_iff_eq.1 hle) hne
    · rw [← beq_iff_eq.1 hle] at hc
      exact hc.symm
  · rw [if_neg hle]

theorem getElem?_dropLast {α : Type} (l : List α) {i : Nat} (h : i < l.length - 1) :
    l.dropLast[i]? = l[i]? := by
  rw [List.dropLast_eq_take, List.getElem?_take, if_pos h]

/-! ### Concrete-state shape lemmas

The page-aligned sparse arrays hold 4096 entries, so concrete states are
handled by rewriting with these shape equations rather than by kernel
evaluation of the full arrays. -/

theorem getD_replicate {α : Type} {n i : Nat} {a d : α} :
    (List.replicate n a).getD i d = if i < n then a else d := by
  rw [List.getD_eq_getElem?_getD, List.getElem?_replicate]
  by_cases h : i < n <;> simp [h]

theorem entA_getId : entA.getId = 0 := by decide

theorem insert_init_A {g : Type} (v : g) :
    ((SparseSet.init : SparseSet g).insert entA v) =
      ⟨[entA], (List.replicate 4096 Entity.null).set 0 (Entity.ofRaw 0), [v]⟩ := by
  have h1 : (SparseSet.init : SparseSet g).assureSpace entA =
      ⟨[], List.replicate 4096 Entity.null, []⟩ := by
    rw [SparseSet.assureSpace]
    rw [if_pos (by rw [entA_getId]; exact Nat.le_refl 0)]
    simp only [SparseSet.init, entA_getId]
    norm_num
  have h2 : @SparseSet.contains g ⟨[], List.replicate 4096 Entity.null, []⟩ entA = false := by
    simp only [SparseSet.contains, entA_getId, List.length_replicate, getD_replicate,
      List.length_nil, Entity.null_getId]
    norm_num
  unfold SparseSet.insert
  rw [h1]
  simp only [h2, Bool.false_eq_true, if_false, entA_getId, List.length_nil, List.nil_append]


theorem entB_getId : entB.getId = 1 := by decide
theorem ofRaw_zero_getId : (Entity.ofRaw 0).getId = 0 := by decide
theorem ofRaw_one_getId : (Entity.ofRaw 1).getId = 1 := by decide

theorem len_set_replicate {α : Type} (n i : Nat) (d x : α) :
    ((List.replicate n d).set i x).length = n := by
  rw [List.length_set, List.length_replicate]

theorem getD_set_replicate_self {α : Type} {n i : Nat} (h : i < n) (a d x : α) :
    ((List.replicate n d).set i x).getD i a = x :=
  getD_set_self (by rw [List.length_replicate]; exact h) x a

theorem getD_set_replicate_other {α : Type} {n i j : Nat} (h : i ≠ j) (a d x : α) :
    ((List.replicate n d).set i x).getD j a = if j < n then d else a := by
  rw [getD_set_ne _ h, getD_replicate]

theorem insert_init_B {g : Type} (v : g) :
    ((SparseSet.init : SparseSet g).insert entB v) =
      ⟨[entB], (List.replicate 4096 Entity.null).set 1 (Entity.ofRaw 0), [v]⟩ := by
  have h1 : (SparseSet.init : SparseSet g).assureSpace entB =
      ⟨[], List.replicate 4096 Entity.null, []⟩ := by
    rw [SparseSet.assureSpace]
    rw [if_pos (by rw [entB_getId]; exact Nat.zero_le 1)]
    simp only [SparseSet.init, entB_getId]
    norm_num
  have h2 : @SparseSet.contains g ⟨[], List.replicate 4096 Entity.null, []⟩ entB = false := by
    simp only [SparseSet.contains, entB_getId, List.length_replicate, getD_replicate,
      List.length_nil, Entity.null_getId]
    norm_num
  unfold SparseSet.insert
  rw [h1]
  simp only [h2, Bool.false_eq_true, if_false, entB_getId, List.length_nil, List.nil_append]

theorem contains_stateA {g : Type} (v : g) :
    @SparseSet.contains g ⟨[entA], (List.replicate 4096 Entity.null).set 0 (Entity.ofRaw 0), [v]⟩
      entA = true := by
  simp only [SparseSet.contains, entA_getId, len_set_replicate,
    getD_set_replicate_self (by norm_num : (0:Nat) < 4096), ofRaw_zero_getId,
    List.length_singleton, List.getD_cons_zero]
  norm_num


theorem contains_stateA_B {g : Type} (v : g) : @SparseSet.contains g
    ⟨[entA], (List.replicate 4096 Entity.null).set 0 (Entity.ofRaw 0), [v]⟩ entB = false := by
  simp only [SparseSet.contains, entB_getId, len_set_replicate,
    getD_set_replicate_other (by norm_num : (0:Nat) ≠ 1), ite_self, Entity.null_getId,
    List.length_singleton]
  norm_num


theorem insert_A_B {g : Type} (v w : g) :
    (((SparseSet.init : SparseSet g).insert entA v).insert entB w) =
      ⟨[entA, entB],
       ((List.replicate 4096 Entity.null).set 0 (Entity.ofRaw 0)).set 1 (Entity.ofRaw 1),
       [v, w]⟩ := by
  rw [insert_init_A]
  unfold SparseSet.insert
  have hassure : SparseSet.assureSpace
      ⟨[entA], (List.replicate 4096 Entity.null).set 0 (Entity.ofRaw 0), [v]⟩ entB =
      ⟨[entA], (List.replicate 4096 Entity.null).set 0 (Entity.ofRaw 0), [v]⟩ := by
    rw [SparseSet.assureSpace]
    rw [if_neg ?hc]
    case hc =>
      show ¬ (((List.replicate 4096 Entity.null).set 0 (Entity.ofRaw 0)).length ≤ entB.getId)
      rw [len_set_replicate, entB_getId]
      omega
  rw [hassure]
  simp only [contains_stateA_B, Bool.false_eq_true, if_false, entB_getId, List.length_singleton]
  rfl


theorem insert_B_A {g : Type} (v w : g) :
    (((SparseSet.init : SparseSet g).insert entB v).insert entA w) =
      ⟨[entB, entA],
       ((List.replicate 4096 Entity.null).set 1 (Entity.ofRaw 0)).set 0 (Entity.ofRaw 1),
       [v, w]⟩ := by
  rw [insert_init_B]
  unfold SparseSet.insert
  have hassure : SparseSet.assureSpace
      ⟨[entB], (List.replicate 4096 Entity.null).set 1 (Entity.ofRaw 0), [v]⟩ entA =
      ⟨[entB], (List.replicate 4096 Entity.null).set 1 (Entity.ofRaw 0), [v]⟩ := by
    rw [SparseSet.assureSpace]
    rw [if_neg ?hc]
    case hc =>
      show ¬ (((List.replicate 4096 Entity.null).set 1 (Entity.ofRaw 0)).length ≤ entA.getId)
      rw [len_set_replicate, entA_getId]
      omega
  have h2 : @SparseSet.contains g
      ⟨[entB], (List.replicate 4096 Entity.null).set 1 (Entity.ofRaw 0), [v]⟩ entA = false := by
    simp only [SparseSet.contains, entA_getId, len_set_replicate,
      getD_set_replicate_other (by norm_num : (1:Nat) ≠ 0), ite_self, Entity.null_getId,
      List.length_singleton]
    norm_num
  rw [hassure]
  simp only [h2, Bool.false_eq_true, if_false, entA_getId, List.length_singleton]
  rfl

theorem contains_stateB {g : Type} (v : g) :
    @SparseSet.contains g ⟨[entB], (List.replicate 4096 Entity.null).set 1 (Entity.ofRaw 0), [v]⟩
      entB = true := by
  simp only [SparseSet.contains, entB_getId, len_set_replicate,
    getD_set_replicate_self (by norm_num : (1:Nat) < 4096), ofRaw_zero_getId,
    List.length_singleton, List.getD_cons_zero]
  norm_num

theorem pool_insert_A {g : Type} (v : g) :
    ((Pool.init : Pool g).insert entA v) =
      ⟨⟨[entA], (List.replicate 4096 Entity.null).set 0 (Entity.ofRaw 0), [v]⟩, 1, entA, some 0⟩ := by
  unfold Pool.insert Pool.init
  simp only [insert_init_A, entA_getId,
    getD_set_replicate_self (by norm_num : (0:Nat) < 4096), ofRaw_zero_getId]

theorem pool_insert_B {g : Type} (v : g) :
    ((Pool.init : Pool g).insert entB v) =
      ⟨⟨[entB], (List.replicate 4096 Entity.null).set 1 (Entity.ofRaw 0), [v]⟩, 1, entB, some 0⟩ := by
  unfold Pool.insert Pool.init
  simp only [insert_init_B, entB_getId,
    getD_set_replicate_self (by norm_num : (1:Nat) < 4096), ofRaw_zero_getId]


theorem getD_X0_zero :
    ((List.replicate 4096 Entity.null).set 0 (Entity.ofRaw 0)).getD 0 Entity.null
      = Entity.ofRaw 0 :=
  getD_set_replicate_self (by norm_num) _ _ _

theorem getD_X01_zero :
    (((List.replicate 4096 Entity.null).set 0 (Entity.ofRaw 0)).set 1
        (Entity.ofRaw 1)).getD 0 Entity.null = Entity.ofRaw 0 := by
  rw [getD_set_ne _ (by norm_num) _ _, getD_X0_zero]

theorem getD_X01_one :
    (((List.replicate 4096 Entity.null).set 0 (Entity.ofRaw 0)).set 1
        (Entity.ofRaw 1)).getD 1 Entity.null = Entity.ofRaw 1 :=
  getD_set_self (by rw [len_set_replicate]; norm_num) _ _

theorem getD_XBA_zero :
    (((List.replicate 4096 Entity.null).set 1 (Entity.ofRaw 0)).set 0
        (Entity.ofRaw 1)).getD 0 Entity.null = Entity.ofRaw 1 :=
  getD_set_self (by rw [len_set_replicate]; norm_num) _ _

theorem getD_XBA_one :
    (((List.replicate 4096 Entity.null).set 1 (Entity.ofRaw 0)).set 0
        (Entity.ofRaw 1)).getD 1 Entity.null = Entity.ofRaw 0 := by
  rw [getD_set_ne _ (by norm_num) _ _]
  exact getD_set_replicate_self (by norm_num) _ _ _

theorem poolDouble_eq :
    poolDouble = ⟨⟨[entA], (List.replicate 4096 Entity.null).set 0 (Entity.ofRaw 0), [7]⟩,
      2, entA, some 0⟩ := by
  have hss : SparseSet.insert
      ⟨[entA], (List.replicate 4096 Entity.null).set 0 (Entity.ofRaw 0), [7]⟩ entA 9 =
      ⟨[entA], (List.replicate 4096 Entity.null).set 0 (Entity.ofRaw 0), [7]⟩ := by
    unfold SparseSet.insert
    have hassure : SparseSet.assureSpace
        ⟨[entA], (List.replicate 4096 Entity.null).set 0 (Entity.ofRaw 0), [7]⟩ entA =
        ⟨[entA], (List.replicate 4096 Entity.null).set 0 (Entity.ofRaw 0), [7]⟩ := by
      rw [SparseSet.assureSpace]
      rw [if_neg ?hc]
      case hc =>
        show ¬ (((List.replicate 4096 Entity.null).set 0 (Entity.ofRaw 0)).length ≤ entA.getId)
        rw [len_set_replicate, entA_getId]
        omega
    rw [hassure, if_pos (contains_stateA 7)]
  rw [poolDouble, pool_insert_A]
  unfold Pool.insert
  simp only [hss, entA_getId, getD_X0_zero, ofRaw_zero_getId]

theorem poolPos_eq :
    poolPos = ⟨⟨[entA, entB],
      ((List.replicate 4096 Entity.null).set 0 (Entity.ofRaw 0)).set 1 (Entity.ofRaw 1),
      [12, 34]⟩, 2, entB, some 1⟩ := by
  have hss : SparseSet.insert
      ⟨[entA], (List.replicate 4096 Entity.null).set 0 (Entity.ofRaw 0), [12]⟩ entB 34 =
      ⟨[entA, entB],
       ((List.replicate 4096 Entity.null).set 0 (Entity.ofRaw 0)).set 1 (Entity.ofRaw 1),
       [12, 34]⟩ := by
    rw [← insert_init_A]
    exact insert_A_B 12 34
  rw [poolPos, pool_insert_A]
  unfold Pool.insert
  simp only [hss, entB_getId, getD_X01_one, ofRaw_one_getId]

theorem poolVel_eq :
    poolVel = ⟨⟨[entB], (List.replicate 4096 Entity.null).set 1 (Entity.ofRaw 0), [56]⟩,
      1, entB, some 0⟩ :=
  pool_insert_B 56

theorem poolCache_eq :
    poolCache = ⟨⟨[entB, entA],
      ((List.replicate 4096 Entity.null).set 1 (Entity.ofRaw 0)).set 0 (Entity.ofRaw 1),
      [5, 6]⟩, 2, entA, some 1⟩ := by
  have hss : SparseSet.insert
      ⟨[entB], (List.replicate 4096 Entity.null).set 1 (Entity.ofRaw 0), [5]⟩ entA 6 =
      ⟨[entB, entA],
       ((List.replicate 4096 Entity.null).set 1 (Entity.ofRaw 0)).set 0 (Entity.ofRaw 1),
       [5, 6]⟩ := by
    rw [← insert_init_B]
    exact insert_B_A 5 6
  rw [poolCache, pool_insert_B]
  unfold Pool.insert
  simp only [hss, entA_getId, getD_XBA_zero, ofRaw_one_getId]

theorem contains_XBA_B :
    @SparseSet.contains Nat ⟨[entB, entA],
      ((List.replicate 4096 Entity.null).set 1 (Entity.ofRaw 0)).set 0 (Entity.ofRaw 1),
      [5, 6]⟩ entB = true := by
  simp only [SparseSet.contains, entB_getId, List.length_set, len_set_replicate,
    getD_XBA_one, ofRaw_zero_getId, List.length_cons, List.length_singleton,
    List.getD_cons_zero]
  norm_num


theorem poolCacheRemoved_eq :
    poolCacheRemoved = ⟨⟨[entA],
      ((((List.replicate 4096 Entity.null).set 1 (Entity.ofRaw 0)).set 0
          (Entity.ofRaw 1)).set 0 (Entity.ofRaw 0)).set 1 Entity.null,
      [6]⟩, 1, entA, some 1⟩ := by
  have hrem : SparseSet.remove ⟨[entB, entA],
      ((List.replicate 4096 Entity.null).set 1 (Entity.ofRaw 0)).set 0 (Entity.ofRaw 1),
      [5, 6]⟩ entB = ⟨[entA],
      ((((List.replicate 4096 Entity.null).set 1 (Entity.ofRaw 0)).set 0
          (Entity.ofRaw 1)).set 0 (Entity.ofRaw 0)).set 1 Entity.null,
      [6]⟩ := by
    unfold SparseSet.remove
    rw [if_neg (by rw [contains_XBA_B]; simp)]
    simp only [entB_getId, getD_XBA_one, ofRaw_zero_getId, List.length_cons,
      List.length_singleton, List.getD_cons_succ, List.getD_cons_zero]
    rfl
  rw [poolCacheRemoved, poolCache_eq]
  unfold Pool.removeEntity
  rw [if_pos contains_XBA_B]
  rw [if_neg (by decide)]
  simp only [hrem]


theorem contains_stateAB_A {g : Type} (v w : g) :
    @SparseSet.contains g ⟨[entA, entB],
      ((List.replicate 4096 Entity.null).set 0 (Entity.ofRaw 0)).set 1 (Entity.ofRaw 1),
      [v, w]⟩ entA = true := by
  simp only [SparseSet.contains, entA_getId, List.length_set, len_set_replicate,
    getD_X01_zero, ofRaw_zero_getId, List.length_cons, List.length_singleton,
    List.getD_cons_zero]
  norm_num

theorem contains_stateAB_B {g : Type} (v w : g) :
    @SparseSet.contains g ⟨[entA, entB],
      ((List.replicate 4096 Entity.null).set 0 (Entity.ofRaw 0)).set 1 (Entity.ofRaw 1),
      [v, w]⟩ entB = true := by
  simp only [SparseSet.contains, entB_getId, List.length_set, len_set_replicate,
    getD_X01_one, ofRaw_one_getId, List.length_cons, List.length_singleton,
    List.getD_cons_succ, List.getD_cons_zero]
  norm_num

theorem contains_stateB_A {g : Type} (v : g) :
    @SparseSet.contains g ⟨[entB],
      (List.replicate 4096 Entity.null).set 1 (Entity.ofRaw 0), [v]⟩ entA = false := by
  simp only [SparseSet.contains, entA_getId, len_set_replicate,
    getD_set_replicate_other (by norm_num : (1:Nat) ≠ 0), ite_self, Entity.null_getId,
    List.length_singleton]
  norm_num

theorem wf_stateAB {g : Type} (v w : g) :
    SparseSet.Wf ⟨[entA, entB],
      ((List.replicate 4096 Entity.null).set 0 (Entity.ofRaw 0)).set 1 (Entity.ofRaw 1),
      [v, w]⟩ := by
  refine ⟨rfl, by norm_num [EntityConstants.idMask], ?_⟩
  intro k hk
  simp only [List.length_cons, List.length_nil] at hk
  have hk2 : k = 0 ∨ k = 1 := by omega
  rcases hk2 with hk2 | hk2 <;> subst hk2
  · simp only [List.getD_cons_zero, entA_getId, List.length_set, len_set_replicate,
      getD_X01_zero]
    exact ⟨by norm_num, by trivial⟩
  · simp only [List.getD_cons_succ, List.getD_cons_zero, entB_getId, List.length_set,
      len_set_replicate, getD_X01_one]
    exact ⟨by norm_num, by trivial⟩

theorem wf_stateB {g : Type} (v : g) :
    SparseSet.Wf ⟨[entB],
      (List.replicate 4096 Entity.null).set 1 (Entity.ofRaw 0), [v]⟩ := by
  refine ⟨rfl, by norm_num [EntityConstants.idMask], ?_⟩
  intro k hk
  simp only [List.length_cons, List.length_nil] at hk
  have hk2 : k = 0 := by omega
  subst hk2
  simp only [List.getD_cons_zero, entB_getId, len_set_replicate,
    getD_set_replicate_self (by norm_num : (1:Nat) < 4096)]
  exact ⟨by norm_num, by trivial⟩

theorem wfViewPool_poolPos : WfViewPool poolPos := by
  rw [poolPos_eq]
  exact ⟨wf_stateAB 12 34, Or.inr (contains_stateAB_B 12 34), by decide⟩

theorem wfViewPool_poolVel : WfViewPool poolVel := by
  rw [poolVel_eq]
  exact ⟨wf_stateB 56, Or.inr (contains_stateB 56), by decide⟩


theorem getD_XBAprime_zero :
    (((((List.replicate 4096 Entity.null).set 1 (Entity.ofRaw 0)).set 0
        (Entity.ofRaw 1)).set 0 (Entity.ofRaw 0)).set 1 Entity.null).getD 0 Entity.null
      = Entity.ofRaw 0 := by
  rw [getD_set_ne _ (by norm_num) _ _]
  exact getD_set_self (by rw [List.length_set, len_set_replicate]; norm_num) _ _

theorem C2containsA :
    @SparseSet.contains Nat ⟨[entA],
      ((((List.replicate 4096 Entity.null).set 1 (Entity.ofRaw 0)).set 0
          (Entity.ofRaw 1)).set 0 (Entity.ofRaw 0)).set 1 Entity.null,
      [6]⟩ entA = true := by
  simp only [SparseSet.contains, entA_getId, List.length_set, len_set_replicate,
    getD_XBAprime_zero, ofRaw_zero_getId, List.length_cons, List.length_nil,
    List.getD_cons_zero]
  norm_num


theorem ssOne_eq :
    ssOne = ⟨[entA], (List.replicate 4096 Entity.null).set 0 (Entity.ofRaw 0), [5]⟩ :=
  insert_init_A 5

theorem ssTwo_eq :
    ssTwo = ⟨[entA, entB],
      ((List.replicate 4096 Entity.null).set 0 (Entity.ofRaw 0)).set 1 (Entity.ofRaw 1),
      [10, 20]⟩ :=
  insert_A_B 10 20

/-! ### Claim C10 -/

/-- C10: a freshly constructed `Pool<T>`, and any `Pool<T>` immediately after
`clear()`, reports `has(Entity::null()) = true` through the empty-cache
sentinel (`lastEntity` initialized/reset to `Entity::null()`), while
`size()` is `0` and the sparse set stores nothing for the null entity. -/
theorem C10_null_sentinel_has :
    ∀ (γ : Type) (p : Pool γ),
      (Pool.init : Pool γ).has Entity.null = true ∧
      (Pool.init : Pool γ).size = 0 ∧
      (Pool.init : Pool γ).components.contains Entity.null = false ∧
      p.clear.has Entity.null = true ∧
      p.clear.size = 0 ∧
      p.clear.components.contains Entity.null = false := by
  intro γ p
  refine ⟨?_, rfl, rfl, ?_, rfl, rfl⟩ <;> simp [Pool.has, Pool.init, Pool.clear]

/-! ### Claim C6 -/

/-- C6: for every sparse-set state reachable through
`insert`/`emplace`/`remove`/`clear`/`sort` (the conclusion in fact holds for
every state), `contains(e)` holds iff `e.getId()` is inside the sparse
array, the sparse entry denotes a dense slot `k < dense.size()`, and
`dense[k] == e` over both id and version; consequently a stale handle with
the same id but a different version fails containment with no explicit
invalidation. -/
theorem C6_contains_characterization {γ : Type} [Inhabited γ] {s : SparseSet γ}
    (_ : s.Reachable) :
    ∀ e e' : Entity,
      (s.contains e = true ↔
        (e.getId < s.sparse.length ∧
         (s.sparse.getD e.getId Entity.null).getId < s.dense.length ∧
         s.dense.getD (s.sparse.getD e.getId Entity.null).getId Entity.null = e)) ∧
      (e'.getId = e.getId → e' ≠ e → s.contains e = true → s.contains e' = false) := by
  intro e e'
  refine ⟨s.contains_iff e, ?_⟩
  intro hid hne hc
  rcases (s.contains_iff e).1 hc with ⟨h1, h2, h3⟩
  cases hce : s.contains e' with
  | false => rfl
  | true =>
    rcases (s.contains_iff e').1 hce with ⟨-, -, h3'⟩
    rw [hid] at h3'
    exact absurd (h3' ▸ h3.symm ▸ rfl) hne.symm

/-- C6 witness: in the one-member reachable state `ssOne` holding entity
(id 0, version 0), the stale handle (id 0, version 1) fails containment. -/
theorem C6_witness :
    SparseSet.Reachable ssOne ∧ ssOne.contains (Entity.make 0 1) = false := by
  have hr : SparseSet.Reachable ssOne :=
    SparseSet.Reachable.insert entA 5 SparseSet.Reachable.init
  refine ⟨hr, ?_⟩
  exact (C6_contains_characterization hr entA (Entity.make 0 1)).2
    (by decide) (by decide) (by rw [ssOne_eq]; exact contains_stateA 5)

/-! ### Claim C4 -/

/-- C4 counterexample: create an entity (id 0, version 0), `clear()`, then
`create()` again — the reset version table reissues (id 0, version 0), so
the pre-clear handle compares equal to the new one and `isValid` reports it
valid again, contradicting "resolves as invalid ... including after its old
id has been reissued". -/
theorem C4_counterexample :
    mgrOne.2.clear.create.2.isValid mgrOne.1 = true ∧
    mgrOne.2.clear.create.1 = mgrOne.1 := by decide

/-- A `create()` on a manager whose version table is all zeros and whose
recycle queue is empty leaves the table all zeros (the fresh branch only
appends zero-initialized padding) and the queue empty. -/
theorem create_keeps_zero_versions (mm : EntityManager) (L : Nat)
    (hv : mm.versions = List.replicate L 0) (hq : mm.recycledIds = []) :
    ∃ Lnew : Nat, (mm.create.2).versions = List.replicate Lnew 0 ∧
      (mm.create.2).recycledIds = [] := by
  simp only [EntityManager.create, hq, hv, List.length_replicate]
  by_cases hL : L ≤ mm.nextId
  · exact ⟨_, by rw [if_pos hL, ← List.replicate_add], trivial⟩
  · exact ⟨L, by rw [if_neg hL], trivial⟩

/-- C4 amended: after `EntityManager::clear()` the manager is empty
(`size() = 0`, ids restart from zero) and every entity handle is invalid at
that point; across any number of subsequent `create()` calls the version
table consists entirely of zeros, so a handle is valid exactly when its id
is inside the table and its stored version is 0 — hence every pre-clear
handle with a nonzero version remains invalid across all subsequent
creates, while a version-0 handle revalidates once the table covers its id
again, which happens when the id is reissued or even earlier through the
zero-filled doubling padding of `versions.resize`, as the counterexample
shows. -/
theorem C4_clear_amended :
    ∀ (m : EntityManager),
      m.clear.size = 0 ∧ m.clear.nextId = 0 ∧
      (∀ e : Entity, m.clear.isValid e = false) ∧
      ∀ (n : Nat) (e : Entity),
        (((fun mm : EntityManager => mm.create.2)^[n] m.clear).isValid e = true ↔
          (e.getId <
              ((fun mm : EntityManager => mm.create.2)^[n] m.clear).versions.length ∧
            e.getVersion = 0)) ∧
        (e.getVersion ≠ 0 →
          ((fun mm : EntityManager => mm.create.2)^[n] m.clear).isValid e = false) := by
  intro m
  have key : ∀ n : Nat, ∃ L : Nat,
      ((fun mm : EntityManager => mm.create.2)^[n] m.clear).versions
        = List.replicate L 0 ∧
      ((fun mm : EntityManager => mm.create.2)^[n] m.clear).recycledIds = [] := by
    intro n
    induction n with
    | zero => exact ⟨0, rfl, rfl⟩
    | succ k ih =>
      obtain ⟨L, hv, hq⟩ := ih
      rw [Function.iterate_succ_apply']
      exact create_keeps_zero_versions _ L hv hq
  refine ⟨rfl, rfl, ?_, ?_⟩
  · intro e
    simp [EntityManager.clear, EntityManager.isValid]
  · intro n e
    obtain ⟨L, hv, -⟩ := key n
    have hiv : ((fun mm : EntityManager => mm.create.2)^[n] m.clear).isValid e
        = (decide (e.getId < L) && (0 == e.getVersion)) := by
      rw [EntityManager.isValid, hv, List.length_replicate]
      congr 1
      rw [getD_replicate, ite_self]
    constructor
    · rw [hiv, Bool.and_eq_true, decide_eq_true_eq, beq_iff_eq, hv,
        List.length_replicate]
      exact and_congr_right fun _ => eq_comm
    · intro hne
      rw [hiv, beq_eq_false_iff_ne.2 (Ne.symm hne), Bool.and_false]

/-- C4 witness: a pre-clear handle with id 5 and version 1 stays invalid
after two post-clear `create()` calls. -/
theorem C4_witness :
    (Entity.make 5 1).getVersion ≠ 0 ∧
    ((fun mm : EntityManager => mm.create.2)^[2] (mgrOne.2.clear)).isValid
      (Entity.make 5 1) = false := by
  refine ⟨by decide, ?_⟩
  exact ((C4_clear_amended mgrOne.2).2.2.2 2 (Entity.make 5 1)).2 (by decide)

/-! ### Claim C3 -/

/-- C3: the claim fails on `Pool::insert` — inserting a component for an
already-present entity is a no-op on the sparse set (the stored component
`7` is not overwritten and the member count stays `1`), but the pool's
`componentCount` is incremented unconditionally, so `Pool::size()` reports
`2` with only one distinct member stored (`Pool::emplace` guards the same
increment, showing the intent). -/
theorem C3_pool_insert_size_bug :
    poolDouble.size = 2 ∧
    poolDouble.components.size = 1 ∧
    poolDouble.components.get entA = some 7 := by
  rw [poolDouble_eq]
  refine ⟨rfl, rfl, ?_⟩
  unfold SparseSet.get
  rw [entA_getId, getD_X0_zero, ofRaw_zero_getId]
  rfl

/-! ### Claim C2 -/

/-- C2: the claim fails on `Pool::removeEntity` — with the cache holding
`entA` (the last dense member) and its component pointer, removing the
other member `entB` swap-relocates `entA`'s component to the vacated slot
but does not invalidate the cache (`entB != lastEntity`), so the cached
`get(entA)` dereferences the popped slot (a dangling pointer, `none` in the
model) even though `entA` is still a member whose component is retrievable
as `6` through the sparse set. -/
theorem C2_cache_stale_get_bug :
    poolCacheRemoved.lastEntity = entA ∧
    (poolCacheRemoved.get entA).1 = none ∧
    poolCacheRemoved.components.contains entA = true ∧
    poolCacheRemoved.components.get entA = some 6 ∧
    poolCacheRemoved.has entA = true := by
  rw [poolCacheRemoved_eq]
  refine ⟨rfl, rfl, ?_, ?_, rfl⟩
  · exact C2containsA
  · unfold SparseSet.get
    rw [entA_getId, getD_XBAprime_zero, ofRaw_zero_getId]
    rfl

/-! ### Claim C9 -/

/-- C9 counterexample: inserting into a pool a component for an entity that
is already present is not a no-op — `Pool::insert` increments
`componentCount` unconditionally, so the observable `size()` changes. -/
theorem C9_counterexample :
    ¬ poolDouble.size = ((Pool.init : Pool Nat).insert entA 7).size := by
  rw [poolDouble_eq, pool_insert_A]
  decide

/-- C9 amended: `destroy` on a not-currently-valid entity and `remove` on a
non-member are deterministic no-ops leaving the whole state unchanged, and
`remove`/`destroy` are idempotent; `insert` on an already-present entity
leaves the sparse set's dense/sparse/components arrays unchanged but (the
divergence the counterexample exhibits) increments the pool's size counter. -/
theorem C9_noop_amended {γ : Type} [Inhabited γ] :
    ∀ (s : SparseSet γ) (m : EntityManager) (e : Entity) (v : γ) (p : Pool γ),
      (m.isValid e = false → m.destroy e = m) ∧
      (s.contains e = false → s.remove e = s) ∧
      (s.contains e = true → s.insert e v = s) ∧
      (p.components.contains e = true →
        (p.insert e v).components = p.components ∧
        (p.insert e v).size = p.size + 1) ∧
      (s.dense.length ≤ EntityConstants.idMask → (s.remove e).remove e = s.remove e) ∧
      ((m.destroy e).destroy e = m.destroy e) := by
  intro s m e v p
  have hmask : EntityConstants.idMask = 1073741823 := rfl
  have hrem_of_not : ∀ t : SparseSet γ, t.contains e = false → t.remove e = t := by
    intro t ht
    rw [SparseSet.remove, if_pos (by rw [ht]; rfl)]
  have hins_of_mem : ∀ t : SparseSet γ, t.contains e = true → t.insert e v = t := by
    intro t ht
    have hid : e.getId < t.sparse.length := ((t.contains_iff e).1 ht).1
    have hassure : t.assureSpace e = t := by
      rw [SparseSet.assureSpace, if_neg (by omega)]
    unfold SparseSet.insert
    rw [hassure, if_pos ht]
  refine ⟨?_, hrem_of_not s, hins_of_mem s, ?_, ?_, ?_⟩
  · intro h
    by_cases h1 : m.versions.length ≤ e.getId
    · rw [EntityManager.destroy, if_pos h1]
    · have hlt : e.getId < m.versions.length := by omega
      have h2 : m.versions.getD e.getId 0 ≠ e.getVersion := by
        intro hc
        rw [EntityManager.isValid, hc] at h
        simp [hlt] at h
      rw [EntityManager.destroy, if_neg h1, if_pos h2]
  · intro h
    refine ⟨?_, rfl⟩
    show p.components.insert e v = p.components
    exact hins_of_mem p.components h
  · intro hlen
    by_cases hc : s.contains e = true
    · rcases (s.contains_iff e).1 hc with ⟨h1, h2, h3⟩
      have hrm : s.remove e =
          ⟨(s.dense.set (s.sparse.getD e.getId Entity.null).getId
              (s.dense.getD (s.dense.length - 1) Entity.null)).dropLast,
           (s.sparse.set (s.dense.getD (s.dense.length - 1) Entity.null).getId
              (Entity.ofRaw (s.sparse.getD e.getId Entity.null).getId)).set
              e.getId Entity.null,
           (s.components.set (s.sparse.getD e.getId Entity.null).getId
              (s.components.getD (s.dense.length - 1) default)).dropLast⟩ := by
        unfold SparseSet.remove
        rw [if_neg (by rw [hc]; simp)]
      have hcontains2 : (s.remove e).contains e = false := by
        cases hce : (s.remove e).contains e with
        | false => rfl
        | true =>
          exfalso
          rcases ((s.remove e).contains_iff e).1 hce with ⟨g1, g2, -⟩
          rw [hrm] at g2
          simp only [List.length_dropLast, List.length_set] at g2
          have hnull : ((s.sparse.set
              (s.dense.getD (s.dense.length - 1) Entity.null).getId
              (Entity.ofRaw (s.sparse.getD e.getId Entity.null).getId)).set
              e.getId Entity.null).getD e.getId Entity.null = Entity.null :=
            getD_set_self (by rw [List.length_set]; exact h1) _ _
          rw [hnull] at g2
          rw [Entity.null_getId] at g2
          omega
      exact hrem_of_not _ hcontains2
    · have hcf : s.contains e = false := by
        cases hcc : s.contains e with
        | false => rfl
        | true => exact absurd hcc hc
      rw [hrem_of_not s hcf]
      exact hrem_of_not s hcf
  · by_cases h1 : m.versions.length ≤ e.getId
    · have hm : m.destroy e = m := by rw [EntityManager.destroy, if_pos h1]
      rw [hm]
      exact hm
    · by_cases h2 : m.versions.getD e.getId 0 ≠ e.getVersion
      · have hm : m.destroy e = m := by rw [EntityManager.destroy, if_neg h1, if_pos h2]
        rw [hm]
        exact hm
      · have hver : m.versions.getD e.getId 0 = e.getVersion := by
          by_contra hcon
          exact h2 hcon
        have hid : e.getId < m.versions.length := by omega
        rw [destroy_of_valid hid hver]
        rw [EntityManager.destroy]
        rw [if_neg (by rw [List.length_set]; omega)]
        rw [if_pos ?hne]
        case hne =>
          show (m.versions.set e.getId ((e.getVersion + 1) % 4)).getD e.getId 0
              ≠ e.getVersion
          rw [getD_set_self hid]
          have := e.getVersion_lt
          omega

/-- C9 witness: concrete no-op instances — destroying the invalid handle
`entB` in a one-entity manager, removing the non-member `entB` from a
one-member sparse set, inserting the already-present `entA`, double remove
and double destroy. -/
theorem C9_witness :
    mgrOne.2.destroy entB = mgrOne.2 ∧
    ssOne.remove entB = ssOne ∧
    ssOne.insert entA 9 = ssOne ∧
    (poolDouble.insert entA 11).components = poolDouble.components ∧
    (ssOne.remove entA).remove entA = ssOne.remove entA ∧
    (mgrOne.2.destroy entA).destroy entA = mgrOne.2.destroy entA := by
  have h1 := C9_noop_amended ssOne mgrOne.2 entB 9 poolDouble
  have h2 := C9_noop_amended ssOne mgrOne.2 entA 11 poolDouble
  have h3 := C9_noop_amended ssOne mgrOne.2 entA 9 poolDouble
  refine ⟨h1.1 (by decide), h1.2.1 ?_, h3.2.2.1 ?_, (h2.2.2.2.1 ?_).1,
    h2.2.2.2.2.1 ?_, h2.2.2.2.2.2⟩
  · rw [ssOne_eq]
    exact contains_stateA_B 5
  · rw [ssOne_eq]
    exact contains_stateA 5
  · rw [poolDouble_eq]
    exact contains_stateA 7
  · rw [ssOne_eq]
    show (1 : Nat) ≤ EntityConstants.idMask
    norm_num [EntityConstants.idMask]

/-! ### Claim C7 -/

/-- C7: removing a member `e` that is not at the last dense position of a
well-formed sparse set relocates the previously-last member (entity and
component) into the vacated slot `i`, repoints the relocated entity's sparse
entry at `i`, keeps `contains`/`get` correct for the relocated entity, makes
`contains e` false, and shrinks `dense`/`components` by exactly one with no
gaps. -/
theorem C7_swap_remove_relocates {γ : Type} [Inhabited γ] (s : SparseSet γ) (e : Entity)
    (hw : s.Wf) (hc : s.contains e = true)
    (hnl : (s.sparse.getD e.getId Entity.null).getId ≠ s.dense.length - 1) :
    (s.remove e).dense.length = s.dense.length - 1 ∧
    (s.remove e).components.length = s.components.length - 1 ∧
    (s.remove e).dense.getD (s.sparse.getD e.getId Entity.null).getId Entity.null
      = s.dense.getD (s.dense.length - 1) Entity.null ∧
    (s.remove e).components[(s.sparse.getD e.getId Entity.null).getId]?
      = s.components[s.dense.length - 1]? ∧
    (s.remove e).sparse.getD (s.dense.getD (s.dense.length - 1) Entity.null).getId
        Entity.null = Entity.ofRaw (s.sparse.getD e.getId Entity.null).getId ∧
    (s.remove e).contains (s.dense.getD (s.dense.length - 1) Entity.null) = true ∧
    (s.remove e).get (s.dense.getD (s.dense.length - 1) Entity.null)
      = s.components[s.dense.length - 1]? ∧
    (s.remove e).contains e = false := by
  obtain ⟨hclen, hdlen, hptr⟩ := hw
  have hmask : EntityConstants.idMask = 1073741823 := rfl
  rcases (s.contains_iff e).1 hc with ⟨hid, hidx, hde⟩
  obtain ⟨hLid, hLsp⟩ := hptr (s.dense.length - 1) (by omega)
  have hidne : (s.dense.getD (s.dense.length - 1) Entity.null).getId ≠ e.getId := by
    intro hcon
    have heq := SparseSet.dense_ids_inj ⟨hclen, hdlen, hptr⟩
      (by omega : s.dense.length - 1 < s.dense.length) hidx (by rw [hde]; exact hcon)
    omega
  have hrm : s.remove e =
      ⟨(s.dense.set (s.sparse.getD e.getId Entity.null).getId
          (s.dense.getD (s.dense.length - 1) Entity.null)).dropLast,
       (s.sparse.set (s.dense.getD (s.dense.length - 1) Entity.null).getId
          (Entity.ofRaw (s.sparse.getD e.getId Entity.null).getId)).set
          e.getId Entity.null,
       (s.components.set (s.sparse.getD e.getId Entity.null).getId
          (s.components.getD (s.dense.length - 1) default)).dropLast⟩ := by
    unfold SparseSet.remove
    rw [if_neg (by rw [hc]; simp)]
  have hlen1 : (s.remove e).dense.length = s.dense.length - 1 := by
    rw [hrm]
    simp only [List.length_dropLast, List.length_set]
  have hlen2 : (s.remove e).components.length = s.components.length - 1 := by
    rw [hrm]
    simp only [List.length_dropLast, List.length_set]
  have hdget : (s.remove e).dense.getD (s.sparse.getD e.getId Entity.null).getId
      Entity.null = s.dense.getD (s.dense.length - 1) Entity.null := by
    rw [hrm]
    rw [List.getD_eq_getElem?_getD, List.dropLast_eq_take, List.getElem?_take,
      if_pos (by rw [List.length_set]; omega),
      List.getElem?_set_self (by omega)]
    rfl
  have hcget : (s.remove e).components[(s.sparse.getD e.getId Entity.null).getId]?
      = s.components[s.dense.length - 1]? := by
    rw [hrm]
    show ((s.components.set (s.sparse.getD e.getId Entity.null).getId
        (s.components.getD (s.dense.length - 1) default)).dropLast)[(s.sparse.getD
        e.getId Entity.null).getId]? = s.components[s.dense.length - 1]?
    rw [List.dropLast_eq_take, List.getElem?_take,
      if_pos (by rw [List.length_set]; omega),
      List.getElem?_set_self (by omega),
      List.getD_eq_getElem (s.components) default (by omega),
      List.getElem?_eq_getElem (by omega : s.dense.length - 1 < s.components.length)]
  have hspget : (s.remove e).sparse.getD
      (s.dense.getD (s.dense.length - 1) Entity.null).getId Entity.null
      = Entity.ofRaw (s.sparse.getD e.getId Entity.null).getId := by
    rw [hrm]
    show ((s.sparse.set (s.dense.getD (s.dense.length - 1) Entity.null).getId
        (Entity.ofRaw (s.sparse.getD e.getId Entity.null).getId)).set
        e.getId Entity.null).getD
        (s.dense.getD (s.dense.length - 1) Entity.null).getId Entity.null = _
    rw [getD_set_ne _ (fun hcon => hidne hcon.symm) _ _]
    exact getD_set_self hLid _ _
  have hofRawId : (Entity.ofRaw (s.sparse.getD e.getId Entity.null).getId).getId
      = (s.sparse.getD e.getId Entity.null).getId :=
    Entity.getId_ofRaw (by omega)
  have hcont2 : (s.remove e).contains
      (s.dense.getD (s.dense.length - 1) Entity.null) = true := by
    rw [(s.remove e).contains_iff]
    refine ⟨?_, ?_, ?_⟩
    · rw [hrm]
      show (s.dense.getD (s.dense.length - 1) Entity.null).getId
          < ((s.sparse.set _ _).set _ _).length
      simp only [List.length_set]
      exact hLid
    · rw [hspget, hofRawId, hlen1]
      omega
    · rw [hspget, hofRawId]
      exact hdget
  have hget2 : (s.remove e).get (s.dense.getD (s.dense.length - 1) Entity.null)
      = s.components[s.dense.length - 1]? := by
    unfold SparseSet.get
    rw [hspget, hofRawId]
    exact hcget
  have hcont3 : (s.remove e).contains e = false := by
    cases hce : (s.remove e).contains e with
    | false => rfl
    | true =>
      exfalso
      rcases ((s.remove e).contains_iff e).1 hce with ⟨-, g2, -⟩
      have hnull : (s.remove e).sparse.getD e.getId Entity.null = Entity.null := by
        rw [hrm]
        exact getD_set_self (by rw [List.length_set]; exact hid) _ _
      rw [hnull, Entity.null_getId, hlen1] at g2
      omega
  exact ⟨hlen1, hlen2, hdget, hcget, hspget, hcont2, hget2, hcont3⟩

/-- C7 witness: in the two-member set `ssTwo` = {entA ↦ 10, entB ↦ 20}
(entA at dense slot 0, entB last), removing `entA` keeps `contains`/`get`
correct for the relocated `entB` and drops `entA`. -/
theorem C7_witness :
    ssTwo.Wf ∧ ssTwo.contains entA = true ∧
    (ssTwo.remove entA).contains entB = true ∧
    (ssTwo.remove entA).get entB = some 20 ∧
    (ssTwo.remove entA).contains entA = false := by
  have hwf : ssTwo.Wf := by
    rw [ssTwo_eq]
    exact wf_stateAB 10 20
  have hc : ssTwo.contains entA = true := by
    rw [ssTwo_eq]
    exact contains_stateAB_A 10 20
  have hnl : (ssTwo.sparse.getD entA.getId Entity.null).getId
      ≠ ssTwo.dense.length - 1 := by
    rw [ssTwo_eq]
    show ((((List.replicate 4096 Entity.null).set 0 (Entity.ofRaw 0)).set 1
        (Entity.ofRaw 1)).getD entA.getId Entity.null).getId ≠ [entA, entB].length - 1
    rw [entA_getId, getD_X01_zero, ofRaw_zero_getId]
    decide
  have h := C7_swap_remove_relocates ssTwo entA hwf hc hnl
  have hlastB : ssTwo.dense.getD (ssTwo.dense.length - 1) Entity.null = entB := by
    rw [ssTwo_eq]
    rfl
  have hcomp : ssTwo.components[ssTwo.dense.length - 1]? = some 20 := by
    rw [ssTwo_eq]
    rfl
  refine ⟨hwf, hc, ?_, ?_, h.2.2.2.2.2.2.2⟩
  · have := h.2.2.2.2.2.1
    rwa [hlastB] at this
  · have := h.2.2.2.2.2.2.1
    rwa [hlastB, hcomp] at this

/-! ### Claim C5 -/

/-- C5 counterexample: with a 2-bit version, four destroy/create cycles at
id 0 wrap the version back to 0, so a subsequently created entity reusing
the id compares EQUAL to the destroyed handle, contradicting "any entity
subsequently returned by create() that reuses the same id ... compares
unequal to the old handle". -/
theorem C5_counterexample :
    (destroyCreate^[4] mgrOne).1.getId = mgrOne.1.getId ∧
    (destroyCreate^[4] mgrOne).1 = mgrOne.1 := by decide

/-- C5 amended: after `destroy(e)` on a currently-valid entity of a
well-formed manager, `isValid(e)` is false, and the NEXT `create()` —
when it reuses `e`'s id — returns a handle whose version is
`(e.version + 1) % 4`, which differs from `e`'s version, so that handle
compares unequal to `e` (repeating the cycle to the version width wraps the
version back, as the counterexample shows). -/
theorem C5_destroy_then_recreate (m : EntityManager) (e : Entity)
    (hw : m.Wf) (hv : m.isValid e = true) :
    (m.destroy e).isValid e = false ∧
    ((m.destroy e).create.1.getId = e.getId →
      (m.destroy e).create.1.getVersion = (e.getVersion + 1) % 4 ∧
      (m.destroy e).create.1 ≠ e) := by
  rw [EntityManager.isValid, Bool.and_eq_true, decide_eq_true_eq, beq_iff_eq] at hv
  obtain ⟨hid, hver⟩ := hv
  have hvlt := e.getVersion_lt
  have hbump : (e.getVersion + 1) % 4 ≠ e.getVersion := by omega
  have hdestroy := destroy_of_valid hid hver
  constructor
  · rw [hdestroy, EntityManager.isValid]
    show (decide (e.getId < (m.versions.set e.getId ((e.getVersion + 1) % 4)).length) &&
      ((m.versions.set e.getId ((e.getVersion + 1) % 4)).getD e.getId 0 ==
        e.getVersion)) = false
    rw [getD_set_self hid, beq_eq_false_iff_ne.2 hbump, Bool.and_false]
  · intro hidmatch
    rw [hdestroy] at hidmatch ⊢
    cases hq : m.recycledIds with
    | nil =>
      simp only [hq, EntityManager.create, List.nil_append] at hidmatch ⊢
      rw [getD_set_self hid]
      refine ⟨?_, ?_⟩
      · rw [Entity.getVersion_make]
        omega
      · apply Entity.ne_of_getVersion_ne
        rw [Entity.getVersion_make]
        omega
    | cons i rest =>
      have hilt : i < 1073741824 := (hw.2.2.2 i (by rw [hq]; exact List.mem_cons_self i rest)).2
      simp only [hq, EntityManager.create, List.cons_append] at hidmatch ⊢
      rw [Entity.getId_make] at hidmatch
      have hieq : i = e.getId := by omega
      subst hieq
      rw [getD_set_self hid]
      refine ⟨?_, ?_⟩
      · rw [Entity.getVersion_make]
        omega
      · apply Entity.ne_of_getVersion_ne
        rw [Entity.getVersion_make]
        omega

/-- C5 witness: the fresh manager's entity (id 0, version 0) — after
destroy, it is invalid and the recreated handle has version 1 and compares
unequal. -/
theorem C5_witness :
    mgrOne.2.Wf ∧ mgrOne.2.isValid mgrOne.1 = true ∧
    (mgrOne.2.destroy mgrOne.1).isValid mgrOne.1 = false ∧
    ((mgrOne.2.destroy mgrOne.1).create.1.getVersion
        = (mgrOne.1.getVersion + 1) % 4 ∧
      (mgrOne.2.destroy mgrOne.1).create.1 ≠ mgrOne.1) := by
  have h := C5_destroy_then_recreate mgrOne.2 mgrOne.1
    (by unfold EntityManager.Wf; decide) (by decide)
  exact ⟨by unfold EntityManager.Wf; decide, by decide, h.1, h.2 (by decide)⟩

/-! ### Claim C8 -/

/-- C8: in a well-formed manager with an empty recycle queue, any number of
destroy/recreate cycles on a live handle keeps every stored version within
the 2-bit mask (`version <= versionMask`), keeps reissuing the same id with
the version advancing modulo 4 (wrapping at the boundary), and the handle
created by each cycle occurs exactly once among the live entities — no
collision with a distinct still-live entity. -/
theorem C8_version_wraparound (m : EntityManager) (e : Entity)
    (hw : m.Wf) (hmem : e ∈ m.validEntities) (hq : m.recycledIds = []) :
    ∀ n : Nat,
      (∀ v ∈ (destroyCreate^[n] (e, m)).2.versions, v ≤ EntityConstants.versionMask) ∧
      (destroyCreate^[n] (e, m)).1.getId = e.getId ∧
      (destroyCreate^[n] (e, m)).1.getVersion = (e.getVersion + n) % 4 ∧
      (destroyCreate^[n] (e, m)).2.validEntities.count
        (destroyCreate^[n] (e, m)).1 = 1 := by
  have main : ∀ n : Nat,
      (destroyCreate^[n] (e, m)).2.Wf ∧
      (destroyCreate^[n] (e, m)).1 ∈ (destroyCreate^[n] (e, m)).2.validEntities ∧
      (destroyCreate^[n] (e, m)).2.recycledIds = [] ∧
      (destroyCreate^[n] (e, m)).1.getId = e.getId ∧
      (destroyCreate^[n] (e, m)).1.getVersion = (e.getVersion + n) % 4 ∧
      (destroyCreate^[n] (e, m)).2.validEntities.count
        (destroyCreate^[n] (e, m)).1 = 1 := by
    intro n
    induction n with
    | zero =>
      refine ⟨hw, hmem, hq, rfl, ?_, ?_⟩
      · show e.getVersion = (e.getVersion + 0) % 4
        have := e.getVersion_lt
        omega
      · show m.validEntities.count e = 1
        have hnd : m.validEntities.Nodup := List.Nodup.of_map _ hw.2.2.1
        have h1 := List.nodup_iff_count_le_one.1 hnd e
        have h2 := List.count_pos_iff.2 hmem
        omega
    | succ k ih =>
      obtain ⟨ihw, ihmem, ihq, ihid, ihver, ihcount⟩ := ih
      have step := destroyCreate_step ihw ihmem ihq
      rw [Function.iterate_succ_apply']
      refine ⟨step.1, step.2.1, step.2.2.1, ?_, ?_, step.2.2.2.2.2⟩
      · rw [step.2.2.2.1, ihid]
      · rw [step.2.2.2.2.1, ihver]
        omega
  intro n
  obtain ⟨hwn, -, -, hid, hver, hcount⟩ := main n
  exact ⟨fun v hv => hwn.1 v hv, hid, hver, hcount⟩

/-- C8 witness: five cycles (more than the 2-bit version width) on the
fresh manager's entity — versions wrap to `(0 + 5) % 4 = 1` and the created
handle is unique among the live entities. -/
theorem C8_witness :
    mgrOne.2.Wf ∧ mgrOne.1 ∈ mgrOne.2.validEntities ∧ mgrOne.2.recycledIds = [] ∧
    (destroyCreate^[5] (mgrOne.1, mgrOne.2)).1.getVersion
        = (mgrOne.1.getVersion + 5) % 4 ∧
    (destroyCreate^[5] (mgrOne.1, mgrOne.2)).2.validEntities.count
        (destroyCreate^[5] (mgrOne.1, mgrOne.2)).1 = 1 := by
  have h := C8_version_wraparound mgrOne.2 mgrOne.1
    (by unfold EntityManager.Wf; decide) (by decide) (by decide) 5
  exact ⟨by unfold EntityManager.Wf; decide, by decide, by decide, h.2.2.1, h.2.2.2⟩

/-! ### Claim C1 -/

/-- C1: for every view over pools in facade-maintained states, the entities
visited by `View::each` are exactly the set intersection of the bound
pools' member sets — independent of which pool is smallest and drives the
iteration (the theorem never constrains the pools' relative sizes) — and if
any bound pool is empty the view visits nothing. -/
theorem C1_view_each_intersection {γ : Type} (ps : List (Pool γ))
    (hw : ∀ p ∈ ps, WfViewPool p) :
    (∀ e : Entity, e ∈ viewEachEntities ps ↔
        (ps ≠ [] ∧ ∀ p ∈ ps, p.components.contains e = true)) ∧
    (∀ p ∈ ps, p.components.dense = [] → viewEachEntities ps = []) := by
  have hmain : ∀ e : Entity, e ∈ viewEachEntities ps ↔
      (ps ≠ [] ∧ ∀ p ∈ ps, p.components.contains e = true) := by
    intro e
    by_cases hps : ps = []
    · subst hps
      constructor
      · intro hmem
        cases hmem
      · rintro ⟨hne, -⟩
        exact absurd rfl hne
    · obtain ⟨d, hd⟩ := findSmallestPool_of_ne_nil hps
      have hdm := findSmallestPool_mem hd
      rw [viewEachEntities, hd]
      simp only [List.mem_filter, Pool.getEntities]
      constructor
      · rintro ⟨hmemd, hall⟩
        have hnnull : e ≠ Entity.null := fun hc => (hw d hdm).2.2 (hc ▸ hmemd)
        refine ⟨hps, fun p hp => ?_⟩
        have hhas : p.has e = true := by
          rw [entityExistsInAllPools, List.all_eq_true] at hall
          exact hall p hp
        rwa [has_eq_contains (hw p hp) hnnull] at hhas
      · rintro ⟨-, hall⟩
        have hcd := hall d hdm
        have hmemd : e ∈ d.components.dense :=
          (SparseSet.contains_iff_mem (hw d hdm).1 e).1 hcd
        have hnnull : e ≠ Entity.null := fun hc => (hw d hdm).2.2 (hc ▸ hmemd)
        refine ⟨hmemd, ?_⟩
        rw [entityExistsInAllPools, List.all_eq_true]
        intro p hp
        rw [has_eq_contains (hw p hp) hnnull]
        exact hall p hp
  refine ⟨hmain, ?_⟩
  intro p hp hempty
  rw [List.eq_nil_iff_forall_not_mem]
  intro e he
  have := ((hmain e).1 he).2 p hp
  have hmem : e ∈ p.components.dense := SparseSet.mem_dense_of_contains this
  rw [hempty] at hmem
  cases hmem

/-- C1 witness: the spec's concrete scenario — Position on entities A and B,
Velocity on B only; the view over both pools visits exactly B (Velocity is
the smaller, driving pool), and a view with an empty pool visits nothing. -/
theorem C1_witness :
    (∀ p ∈ [poolPos, poolVel], WfViewPool p) ∧
    entB ∈ viewEachEntities [poolPos, poolVel] ∧
    entA ∉ viewEachEntities [poolPos, poolVel] ∧
    viewEachEntities [poolPos, (Pool.init : Pool Nat)] = [] := by
  have hwf : ∀ p ∈ [poolPos, poolVel], WfViewPool p := by
    intro p hp
    rcases List.mem_cons.1 hp with h | h
    · rw [h]
      exact wfViewPool_poolPos
    · rw [List.mem_singleton.1 h]
      exact wfViewPool_poolVel
  have hwf2 : ∀ p ∈ [poolPos, (Pool.init : Pool Nat)], WfViewPool p := by
    intro p hp
    rcases List.mem_cons.1 hp with h | h
    · rw [h]
      exact wfViewPool_poolPos
    · rw [List.mem_singleton.1 h]
      exact ⟨⟨rfl, Nat.zero_le _, by intro k hk; cases hk⟩,
        Or.inl rfl, by intro h; cases h⟩
  refine ⟨hwf, ?_, ?_, ?_⟩
  · refine ((C1_view_each_intersection [poolPos, poolVel] hwf).1 entB).2 ⟨by simp, ?_⟩
    intro p hp
    rcases List.mem_cons.1 hp with h | h
    · rw [h, poolPos_eq]
      exact contains_stateAB_B 12 34
    · rw [List.mem_singleton.1 h, poolVel_eq]
      exact contains_stateB 56
  · intro hc
    have h := ((C1_view_each_intersection [poolPos, poolVel] hwf).1 entA).1 hc
    have hv := h.2 poolVel (by simp)
    rw [poolVel_eq] at hv
    rw [contains_stateB_A 56] at hv
    cases hv
  · exact (C1_view_each_intersection [poolPos, (Pool.init : Pool Nat)] hwf2).2
      (Pool.init : Pool Nat) (by simp) rfl

end Vecs
